import Mathlib

/-!
# Formal model of `libhtml` (alexisbcz/libhtml, `src/html.go`)

A shallow embedding of the node model and rendering engine of `libhtml`:
the node variants (`text`, `raw`, `if_`, `ifFunc`, `ifElse`, `ifElseFunc`,
`map_`, `group`, `Tag`, `document`), the recursive single-pass `Render`
algorithm over an `io.Writer` sink, the escaping applied by `Text` nodes,
and the attribute operations `Attribute` / `AttributeIf`.

Modelling conventions:
* The Go `io.Writer` is modelled as a history-dependent failure oracle
  (`Writer ε`): given the chunks successfully written so far and the chunk
  about to be written, it either succeeds or fails with an error of type `ε`.
  The render state (`RState`) records the list of successfully written chunks.
* A Go `nil` `Node` is `Option.none`; children lists are `List (Option Node)`.
* Go thunks (`func() Node`, as in `IfFunc`/`IfElseFunc`) are zero-argument
  closures whose only observable behaviours are their side effects and the
  node they return.  They are modelled extensionally as a pair
  `List Nat × Option Node`: the event labels the closure emits when invoked
  and the (possibly nil) node it returns.  `render` appends a thunk's events
  exactly at the program point where the Go code calls the closure, so
  "the thunk was invoked n times" is observable as its events occurring
  n times in the event log.  A `nil` function value is `Option.none` around
  the pair.  Likewise the transform passed to `Map` is a per-item closure;
  a `map_` node stores the list `items.map transform` of (events, node)
  pairs, one per item in order, and `render` consumes an item's pair — i.e.
  invokes the transform on that item — only when the traversal reaches it.
* A Go panic (nil-pointer dereference: calling a `nil` function or invoking
  `Render` on a `nil` `Node` interface value) is the `RResult.panic` outcome.
* The Go attribute map `map[string]string` is modelled as an association
  list with unique keys; `setAttr` is map assignment (overwrite or append).
  Go map iteration order is unspecified; the model renders attributes in
  the list's order, a deterministic refinement.
-/

namespace LibHtml

/-- The sink: given the chunks successfully written so far and the chunk
being written, report failure (`some e`) or success (`none`).  Models an
arbitrary `io.Writer` whose `Write` may fail at any point. -/
def Writer (ε : Type) : Type := List String → String → Option ε

/-- Render-time state: the chunks successfully written to the sink, and the
log of events emitted by caller-supplied closures (thunks / transforms)
invoked so far. -/
structure RState where
  written : List String
  events : List Nat
deriving Repr, DecidableEq

/-- Outcome of `Render`: normal return (`ok`), an error propagated from a
sink write (`err`), or a Go runtime panic (`panic`, from a nil-pointer
dereference).  Each outcome carries the state at that moment. -/
inductive RResult (ε : Type) where
  | ok (st : RState)
  | err (e : ε) (st : RState)
  | panic (st : RState)
deriving Repr, DecidableEq

/-- The node model of `html.go`: one constructor per `Node` implementation.
Thunks and per-item transform results are `List Nat × Option Node` pairs
(events emitted on invocation, node returned); see the module docstring. -/
inductive Node : Type where
  | text (content : String)
  | raw (content : String)
  | if_ (condition : Bool) (then_ : Option Node)
  | ifFunc (condition : Bool) (thenFn : Option (List Nat × Option Node))
  | ifElse (condition : Bool) (then_ : Option Node) (else_ : Option Node)
  | ifElseFunc (condition : Bool) (thenFn : Option (List Nat × Option Node))
      (elseFn : Option (List Nat × Option Node))
  | map_ (entries : List (List Nat × Option Node))
  | group (children : List (Option Node))
  | tag (name : String) (isVoid : Bool) (attributes : List (String × String))
      (children : List (Option Node))
  | document (children : List (Option Node))
deriving Repr

/-- One `w.Write` call: on success the chunk is appended to the log, on
failure the sink's error is returned and the log is unchanged. -/
def writeW {ε : Type} (w : Writer ε) (st : RState) (s : String) : RResult ε :=
  match w st.written s with
  | some e => .err e st
  | none => .ok { st with written := st.written ++ [s] }

/-- Record the events emitted by invoking a closure. -/
def emit (st : RState) (ev : List Nat) : RState :=
  { st with events := st.events ++ ev }

/-- Per-character table of Go's `html.EscapeString` (the function `Text`
nodes route through): it replaces exactly the five characters
`&`→`&amp;`, `'`→`&#39;`, `<`→`&lt;`, `>`→`&gt;`, `"`→`&#34;` and leaves
every other character unchanged. -/
def escapeChar (c : Char) : String :=
  if c = '&' then "&amp;"
  else if c = '\'' then "&#39;"
  else if c = '<' then "&lt;"
  else if c = '>' then "&gt;"
  else if c = '"' then "&#34;"
  else String.singleton c

/-- A single left-to-right pass over a character list, replacing each
character by its `escapeChar` image (replacements are not re-scanned, so no
double-escaping occurs). -/
def escapeList : List Char → String
  | [] => ""
  | c :: rest => escapeChar c ++ escapeList rest

/-- Go's `html.EscapeString` (the `strings.Replacer` with the five
single-character patterns of `escapeChar`, applied in one pass). -/
def escapeString (s : String) : String :=
  escapeList s.data

/-- The attribute loop of `Tag.Render`: each pair is written as
` key="value"` (value verbatim), aborting on the first failed write. -/
def renderAttrs {ε : Type} (attrs : List (String × String)) (w : Writer ε)
    (st : RState) : RResult ε :=
  match attrs with
  | [] => .ok st
  | (key, value) :: rest =>
      match writeW w st (" " ++ key ++ "=\"" ++ value ++ "\"") with
      | .ok st' => renderAttrs rest w st'
      | r => r

mutual

/-- `Render` of `html.go`, one equation per `Render` method.  Mirrors the
Go control flow: `text` writes the escaped content, `raw` writes the content
verbatim; `if_`/`ifElse` render the selected pre-built node (panicking when
it is nil); `ifFunc`/`ifElseFunc` invoke the selected thunk when present
(the `ifElseFunc` else path checks neither the function nor its result for
nil); `map_` invokes the transform per item and renders the result with no
nil check; `group`/`document` render children skipping nils (`document`
first writes the `<!DOCTYPE html>` preamble); `tag` writes `<name`, the
attributes, then either `/>` (void) or `>`, the children (nils skipped)
and `</name>`. -/
def render {ε : Type} (n : Node) (w : Writer ε) (st : RState) : RResult ε :=
  match n with
  | .text content => writeW w st (escapeString content)
  | .raw content => writeW w st content
  | .if_ condition then_ =>
      if condition then
        match then_ with
        | none => .panic st
        | some node => render node w st
      else .ok st
  | .ifFunc condition thenFn =>
      match condition, thenFn with
      | true, some (ev, n?) =>
          let st' := emit st ev
          match n? with
          | some node => render node w st'
          | none => .ok st'
      | _, _ => .ok st
  | .ifElse condition then_ else_ =>
      if condition then
        match then_ with
        | none => .panic st
        | some node => render node w st
      else
        match else_ with
        | none => .panic st
        | some node => render node w st
  | .ifElseFunc condition thenFn elseFn =>
      match condition, thenFn with
      | true, some (ev, n?) =>
          let st' := emit st ev
          match n? with
          | some node => render node w st'
          | none => .ok st'
      | _, _ =>
          match elseFn with
          | none => .panic st
          | some (ev, n?) =>
              let st' := emit st ev
              match n? with
              | some node => render node w st'
              | none => .panic st'
  | .map_ entries => renderEntries entries w st
  | .group children => renderChildren children w st
  | .tag name isVoid attributes children =>
      match writeW w st ("<" ++ name) with
      | .ok st1 =>
          match renderAttrs attributes w st1 with
          | .ok st2 =>
              if isVoid then writeW w st2 "/>"
              else
                match writeW w st2 ">" with
                | .ok st3 =>
                    match renderChildren children w st3 with
                    | .ok st4 => writeW w st4 ("</" ++ name ++ ">")
                    | r => r
                | r => r
          | r => r
      | r => r
  | .document children =>
      match writeW w st "<!DOCTYPE html>" with
      | .ok st' => renderChildren children w st'
      | r => r
termination_by sizeOf n

/-- The children loop shared by `document.Render`, `group.Render` and the
non-void branch of `Tag.Render`: nil children are skipped, the first
non-`ok` outcome aborts the loop. -/
def renderChildren {ε : Type} (cs : List (Option Node)) (w : Writer ε)
    (st : RState) : RResult ε :=
  match cs with
  | [] => .ok st
  | none :: rest => renderChildren rest w st
  | some child :: rest =>
      match render child w st with
      | .ok st' => renderChildren rest w st'
      | r => r
termination_by sizeOf cs

/-- The loop of `map_.Render`: for each item in order, invoke the transform
(recording its events) and render the resulting node — with no nil check,
so a nil result panics — aborting on the first non-`ok` outcome. -/
def renderEntries {ε : Type} (es : List (List Nat × Option Node))
    (w : Writer ε) (st : RState) : RResult ε :=
  match es with
  | [] => .ok st
  | (ev, n?) :: rest =>
      let st' := emit st ev
      match n? with
      | none => .panic st'
      | some node =>
          match render node w st' with
          | .ok st2 => renderEntries rest w st2
          | r => r
termination_by sizeOf es

end

/-- A sink that never fails (e.g. `strings.Builder`). -/
def okW : Writer Unit := fun _ _ => none

/-- A sink whose every write fails (with the unit error). -/
def failW : Writer Unit := fun _ _ => some ()

/-- The `Tag` record of `html.go`: element name, void flag, children and
attribute map (association list with unique keys; see module docstring). -/
structure Tag where
  name : String
  isVoid : Bool
  children : List (Option Node)
  attributes : List (String × String)
deriving Repr

/-- Go map assignment `attributes[key] = value` on the association-list
model: overwrite the entry for `key` if present, else append it. -/
def setAttr (attrs : List (String × String)) (key value : String) :
    List (String × String) :=
  if attrs.any (fun p => p.1 = key) then
    attrs.map (fun p => if p.1 = key then (key, value) else p)
  else attrs ++ [(key, value)]

/-- `NewTag` of `html.go`: a tag with an empty attribute map. -/
def NewTag (name : String) (isVoid : Bool) (children : List (Option Node)) :
    Tag :=
  { name := name, isVoid := isVoid, children := children, attributes := [] }

/-- `Tag.Attribute` of `html.go`: no-op on the empty value, otherwise map
assignment.  (Go mutates the receiver and returns it; the model returns the
updated record, so chained Go calls are nested applications.) -/
def Tag.Attribute (t : Tag) (key value : String) : Tag :=
  if value = "" then t
  else { t with attributes := setAttr t.attributes key value }

/-- `Tag.AttributeIf` of `html.go`: when the condition holds, map
assignment — with no empty-value check — otherwise no-op. -/
def Tag.AttributeIf (t : Tag) (cond : Bool) (key value : String) : Tag :=
  if cond then { t with attributes := setAttr t.attributes key value }
  else t

/-- The `Node` view of a `Tag` (its `Render` method is the `tag` case of
`render`). -/
def Tag.toNode (t : Tag) : Node :=
  .tag t.name t.isVoid t.attributes t.children

/-- `Text` of `html.go`. -/
def Text (content : String) : Node := .text content

/-- `Raw` of `html.go`. -/
def Raw (content : String) : Node := .raw content

/-- `If` of `html.go` (the node may be Go `nil`). -/
def If (condition : Bool) (then_ : Option Node) : Node :=
  .if_ condition then_

/-- `IfFunc` of `html.go` (the thunk may be Go `nil`). -/
def IfFunc (condition : Bool) (thenFn : Option (List Nat × Option Node)) :
    Node :=
  .ifFunc condition thenFn

/-- `IfElse` of `html.go`. -/
def IfElse (condition : Bool) (then_ else_ : Option Node) : Node :=
  .ifElse condition then_ else_

/-- `IfElseFunc` of `html.go`. -/
def IfElseFunc (condition : Bool)
    (thenFn elseFn : Option (List Nat × Option Node)) : Node :=
  .ifElseFunc condition thenFn elseFn

/-- `Map` of `html.go`: generic in the item type; the transform is a
per-item closure (events it emits when invoked, node it returns), and
`render` consumes `transform i` only when the traversal reaches item `i`. -/
def Map {α : Type} (items : List α)
    (transform : α → List Nat × Option Node) : Node :=
  .map_ (items.map transform)

/-- `Group` of `html.go`. -/
def Group (children : List (Option Node)) : Node := .group children

/-- `Document` of `html.go`. -/
def Document (children : List (Option Node)) : Node := .document children

/-- The state carried by a render outcome (at return, error, or panic). -/
def resState {ε : Type} : RResult ε → RState
  | .ok st => st
  | .err _ st => st
  | .panic st => st

/-- The fragment `Tag.Render` writes for one attribute pair:
` key="value"`, the value verbatim. -/
def attrFrag (p : String × String) : String :=
  " " ++ p.1 ++ "=\"" ++ p.2 ++ "\""

/-- A node whose rendering never appends events to the log, whatever the
sink and state.  Any node built without thunks has this property; it lets
an event in the log be attributed to a specific thunk invocation. -/
def preservesEvents (n : Node) : Prop :=
  ∀ (ε : Type) (w : Writer ε) (st : RState),
    (resState (render n w st)).events = st.events

/-- `preservesEvents` lifted to a possibly-nil node. -/
def optPreservesEvents : Option Node → Prop
  | none => True
  | some n => preservesEvents n

theorem escapeList_append (l₁ l₂ : List Char) :
    escapeList (l₁ ++ l₂) = escapeList l₁ ++ escapeList l₂ := by
  induction l₁ with
  | nil => simp [escapeList]
  | cons c rest ih => simp [escapeList, ih, String.append_assoc]

theorem writeW_okW (st : RState) (s : String) :
    writeW okW st s = .ok { st with written := st.written ++ [s] } := rfl

theorem renderChildren_filter {ε : Type} (w : Writer ε)
    (cs : List (Option Node)) (st : RState) :
    renderChildren (cs.filter Option.isSome) w st = renderChildren cs w st := by
  induction cs generalizing st with
  | nil => rfl
  | cons c rest ih =>
    cases c with
    | none => simpa [renderChildren] using ih st
    | some n =>
      simp only [List.filter_cons, Option.isSome_some, if_true, renderChildren]
      cases render n w st with
      | ok st' => exact ih st'
      | err e st' => rfl
      | panic st' => rfl

theorem renderAttrs_okW (attrs : List (String × String)) (st : RState) :
    renderAttrs attrs okW st =
      .ok { st with written := st.written ++ attrs.map attrFrag } := by
  induction attrs generalizing st with
  | nil => simp [renderAttrs]
  | cons p rest ih => simp [renderAttrs, writeW, okW, ih, attrFrag]

theorem renderEntries_append {ε : Type} (w : Writer ε)
    (xs ys : List (List Nat × Option Node)) (st : RState) :
    renderEntries (xs ++ ys) w st =
      match renderEntries xs w st with
      | .ok st' => renderEntries ys w st'
      | r => r := by
  induction xs generalizing st with
  | nil => simp [renderEntries]
  | cons e rest ih =>
    obtain ⟨ev, n?⟩ := e
    cases n? with
    | none => simp [renderEntries]
    | some node =>
      simp only [List.cons_append, renderEntries]
      cases render node w (emit st ev) with
      | ok st2 => simp [ih]
      | err e' st2 => rfl
      | panic st2 => rfl

/-- The escape table as the spec words it (C1's claimed table): identical
to Go's except that it sends `"` to `&quot;` where the code (via Go's
`html.EscapeString`) produces `&#34;`. -/
def specEscapeChar (c : Char) : String :=
  if c = '&' then "&amp;"
  else if c = '\'' then "&#39;"
  else if c = '<' then "&lt;"
  else if c = '>' then "&gt;"
  else if c = '"' then "&quot;"
  else String.singleton c

/-- The escape function as the spec words it, for comparison with
`escapeString`. -/
def specEscape (s : String) : String :=
  String.join (s.data.map specEscapeChar)

/-- C1 counterexample: the claim says `Text` escapes `"` to `&quot;`, but
rendering `Text "\""` writes `&#34;` (Go's `html.EscapeString` uses the
shorter decimal entity), which differs from the claimed `&quot;`. -/
theorem text_escapes_quote_as_decimal_entity :
    specEscape "\"" = "&quot;" ∧
    render (Text "\"") okW ⟨[], []⟩ = .ok ⟨["&#34;"], []⟩ ∧
    ("&#34;" : String) ≠ "&quot;" := by
  refine ⟨rfl, ?_, by decide⟩
  simp [Text, render, writeW, okW]
  rfl

/-- C1 (amended): the escape function applied by `Text` nodes substitutes
exactly the five characters `&`→`&amp;`, `<`→`&lt;`, `>`→`&gt;`,
`"`→`&#34;`, `'`→`&#39;` — each occurrence, replacements not re-scanned so
no double-escaping — and leaves every other character unchanged; for every
string `s`, `Text s` renders `escapeString s` while `Raw s` renders `s`
unchanged. -/
theorem text_render_escape_characterization :
    (∀ s t : String, escapeString (s ++ t) = escapeString s ++ escapeString t) ∧
    escapeString "&" = "&amp;" ∧
    escapeString "<" = "&lt;" ∧
    escapeString ">" = "&gt;" ∧
    escapeString "\"" = "&#34;" ∧
    escapeString "\'" = "&#39;" ∧
    (∀ c : Char, c ∉ (['&', '<', '>', '"', '\''] : List Char) →
      escapeString (String.singleton c) = String.singleton c) ∧
    (∀ (s : String) (st : RState),
      render (Text s) okW st =
        .ok { st with written := st.written ++ [escapeString s] }) ∧
    (∀ (s : String) (st : RState),
      render (Raw s) okW st = .ok { st with written := st.written ++ [s] }) := by
  refine ⟨?_, rfl, rfl, rfl, rfl, rfl, ?_, ?_, ?_⟩
  · intro s t
    simp [escapeString, String.data_append, escapeList_append]
  · intro c hc
    simp only [List.mem_cons, List.not_mem_nil, or_false, not_or] at hc
    obtain ⟨h1, h2, h3, h4, h5⟩ := hc
    show escapeList [c] = String.singleton c
    simp [escapeList, escapeChar, h1, h2, h3, h4, h5, String.append_empty]
  · intro s st
    simp [Text, render, writeW, okW]
  · intro s st
    simp [Raw, render, writeW, okW]

/-- Witness for C1's amended theorem at concrete inputs. -/
theorem text_render_escape_characterization_witness :
    escapeString (String.singleton 'a') = String.singleton 'a' ∧
    escapeString ("x" ++ "<") = escapeString "x" ++ escapeString "<" :=
  ⟨text_render_escape_characterization.2.2.2.2.2.2.1 'a' (by decide),
   text_render_escape_characterization.1 "x" "<"⟩

/-- C2 counterexample: `AttributeIf true "x" ""` stores the attribute (and
renders ` x=""`), while `Attribute "x" ""` is a no-op — so `AttributeIf`
with a true predicate does not behave as `Attribute` on the empty value. -/
theorem attributeIf_true_empty_sets_attribute :
    ((NewTag "div" false []).AttributeIf true "x" "").attributes = [("x", "")] ∧
    ((NewTag "div" false []).Attribute "x" "").attributes = [] ∧
    render ((NewTag "div" false []).AttributeIf true "x" "").toNode okW ⟨[], []⟩ =
      .ok ⟨["<div", " x=\"\"", ">", "</div>"], []⟩ := by
  refine ⟨rfl, rfl, ?_⟩
  simp [NewTag, Tag.AttributeIf, Tag.toNode, setAttr, render, renderAttrs,
    renderChildren, attrFrag, writeW, okW]

/-- C2 (amended): `AttributeIf p k v` equals `Attribute k v` when `p` is
true and `v` is non-empty; when `p` is true and `v` is empty it stores the
empty-valued attribute (unlike `Attribute`, which is a no-op); when `p` is
false it is a no-op. -/
theorem attributeIf_semantics :
    ∀ (t : Tag) (p : Bool) (k v : String),
      (p = true → v ≠ "" → t.AttributeIf p k v = t.Attribute k v) ∧
      (p = true → v = "" →
        (t.AttributeIf p k v).attributes = setAttr t.attributes k "" ∧
        t.Attribute k v = t) ∧
      (p = false → t.AttributeIf p k v = t) := by
  intro t p k v
  refine ⟨fun hp hv => ?_, fun hp hv => ⟨?_, ?_⟩, fun hp => ?_⟩
  · subst hp
    simp [Tag.AttributeIf, Tag.Attribute, hv]
  · subst hp hv
    simp [Tag.AttributeIf]
  · subst hv
    simp [Tag.Attribute]
  · subst hp
    simp [Tag.AttributeIf]

/-- Witness for C2's amended theorem at concrete inputs. -/
theorem attributeIf_semantics_witness :
    (NewTag "a" false []).AttributeIf true "x" "y" =
      (NewTag "a" false []).Attribute "x" "y" ∧
    (NewTag "a" false []).AttributeIf false "x" "y" = NewTag "a" false [] :=
  ⟨(attributeIf_semantics (NewTag "a" false []) true "x" "y").1 rfl (by decide),
   (attributeIf_semantics (NewTag "a" false []) false "x" "y").2.2 rfl⟩

/-- C3 counterexample: when `IfElseFunc`'s condition is false and the else
thunk returns a nil node, rendering panics (the else path calls `Render`
on the result with no nil check) instead of writing nothing. -/
theorem ifElseFunc_nil_else_result_panics :
    render (IfElseFunc false (some ([], some (Text "x"))) (some ([], none)))
      okW ⟨[], []⟩ = .panic ⟨[], []⟩ := by
  simp [IfElseFunc, Text, render, emit]

/-- C3 (amended): a nil node returned by the taken thunk renders nothing
and returns no error for `IfFunc` (either condition) and for `IfElseFunc`
with a true condition; but for `IfElseFunc` with a false condition, a nil
node from the else thunk panics (after the thunk's events are recorded). -/
theorem lazy_nil_thunk_result_semantics :
    ∀ {ε : Type} (w : Writer ε) (st : RState) (c : Bool) (ev : List Nat)
      (tf ef : Option (List Nat × Option Node)),
      (render (IfFunc c (some (ev, none))) w st =
        .ok (if c then emit st ev else st)) ∧
      (render (IfElseFunc true (some (ev, none)) ef) w st = .ok (emit st ev)) ∧
      (render (IfElseFunc false tf (some (ev, none))) w st =
        .panic (emit st ev)) := by
  intro ε w st c ev tf ef
  refine ⟨?_, ?_, ?_⟩
  · cases c <;> simp [IfFunc, render]
  · simp [IfElseFunc, render]
  · cases tf <;> simp [IfElseFunc, render]

/-- C5: `Render` panics (nil-pointer dereference) rather than returning an
error when: `If true nil` renders a nil node; `IfElse` selects a nil
branch (either side); `IfElseFunc` with a false condition has a nil else
thunk, or its else thunk returns a nil node; and `Map`'s transform
produces a nil node. -/
theorem render_panics_on_nil_inputs :
    render (If true none) okW ⟨[], []⟩ = .panic ⟨[], []⟩ ∧
    render (IfElse true none (some (Text "x"))) okW ⟨[], []⟩ = .panic ⟨[], []⟩ ∧
    render (IfElse false (some (Text "x")) none) okW ⟨[], []⟩ = .panic ⟨[], []⟩ ∧
    render (IfElseFunc false (some ([], some (Text "x"))) none) okW ⟨[], []⟩ =
      .panic ⟨[], []⟩ ∧
    render (IfElseFunc false none (some ([], none))) okW ⟨[], []⟩ =
      .panic ⟨[], []⟩ ∧
    render (Map [0] (fun _ => ([], (none : Option Node)))) okW ⟨[], []⟩ =
      .panic ⟨[], []⟩ := by
  refine ⟨?_, ?_, ?_, ?_, ?_, ?_⟩ <;>
    simp [If, IfElse, IfElseFunc, Map, Text, render, renderEntries, emit]

theorem setAttr_cons_ne (p : String × String) (l : List (String × String))
    (k v : String) (h : ¬ p.1 = k) :
    setAttr (p :: l) k v = p :: setAttr l k v := by
  by_cases hl : l.any (fun q => q.1 = k)
  · simp [setAttr, hl, h]
  · simp [setAttr, hl, h]

theorem setAttr_setAttr (l : List (String × String)) (k v v' : String) :
    setAttr (setAttr l k v) k v' = setAttr l k v' := by
  induction l with
  | nil => simp [setAttr]
  | cons p rest ih =>
    by_cases hp : p.1 = k
    · obtain ⟨pk, pv⟩ := p
      simp only at hp
      subst hp
      have h1 : ((pk, pv) :: rest).any (fun q => q.1 = pk) = true := by simp
      simp only [setAttr, h1, if_true, List.map_map, List.map_cons, if_pos rfl]
      have h2 : ((pk, v) :: rest.map fun q => if q.1 = pk then (pk, v) else q).any
          (fun q => q.1 = pk) = true := by simp
      simp only [h2, if_true, List.map_cons, List.map_map, if_pos rfl]
      congr 1
      apply List.map_congr_left
      intro q _
      by_cases hq : q.1 = pk <;> simp [hq]
    · rw [setAttr_cons_ne p rest k v hp, setAttr_cons_ne _ _ _ _ hp,
        setAttr_cons_ne p rest k v' hp, ih]

theorem filter_key_setAttr (l : List (String × String)) (k v : String)
    (h : (l.map Prod.fst).Nodup) :
    (setAttr l k v).filter (fun p => p.1 = k) = [(k, v)] := by
  induction l with
  | nil => simp [setAttr]
  | cons p rest ih =>
    obtain ⟨hk, hnd⟩ := List.nodup_cons.mp h
    by_cases hp : p.1 = k
    · obtain ⟨pk, pv⟩ := p
      simp only at hp
      subst hp
      have h1 : ((pk, pv) :: rest).any (fun q => q.1 = pk) = true := by simp
      simp only [setAttr, h1, if_true, List.map_cons, if_pos rfl,
        List.filter_cons]
      have hne : ∀ q ∈ rest, q.1 ≠ pk := by
        intro q hq hqk
        apply hk
        rw [← hqk]
        exact List.mem_map.mpr ⟨q, hq, rfl⟩
      have hrest : (rest.map fun q => if q.1 = pk then (pk, v) else q) = rest := by
        refine (List.map_congr_left ?_).trans (List.map_id rest)
        intro q hq
        simp [hne q hq]
      rw [hrest]
      have hfil : rest.filter (fun p => p.1 = pk) = [] := by
        refine List.filter_eq_nil_iff.mpr ?_
        intro q hq
        simp [hne q hq]
      simp [hfil]
    · rw [setAttr_cons_ne p rest k v hp]
      simp [List.filter_cons, hp, ih hnd]

/-- C4: a lazy conditional invokes only the thunk of the branch its
condition selects, exactly once, at render time.  With thunks modelled as
(event list, returned node) pairs, the render log gains exactly the taken
thunk's events (once), provided the returned nodes themselves add no
events; moreover the untaken thunk — of whatever shape, nil included —
never influences the outcome at all, and `IfFunc false` renders nothing. -/
theorem lazy_thunk_invocation_discipline :
    ∀ {ε : Type} (w : Writer ε) (st : RState) (c : Bool)
      (evA evB : List Nat) (nt nf : Option Node),
      optPreservesEvents nt → optPreservesEvents nf →
      ((resState (render (IfElseFunc c (some (evA, nt)) (some (evB, nf))) w st)).events =
        st.events ++ (if c then evA else evB)) ∧
      ((resState (render (IfFunc c (some (evA, nt))) w st)).events =
        st.events ++ (if c then evA else [])) ∧
      (∀ (f : List Nat × Option Node)
        (ef ef' : Option (List Nat × Option Node)),
        render (IfElseFunc true (some f) ef) w st =
          render (IfElseFunc true (some f) ef') w st) ∧
      (∀ (tf tf' : Option (List Nat × Option Node))
        (g : Option (List Nat × Option Node)),
        render (IfElseFunc false tf g) w st =
          render (IfElseFunc false tf' g) w st) ∧
      (∀ tf : Option (List Nat × Option Node),
        render (IfFunc false tf) w st = .ok st) := by
  intro ε w st c evA evB nt nf hnt hnf
  refine ⟨?_, ?_, ?_, ?_, ?_⟩
  · cases c
    · cases nf with
      | none => simp [IfElseFunc, render, emit, resState]
      | some node =>
        simp only [IfElseFunc, render]
        rw [hnf ε w (emit st evB)]
        simp [emit]
    · cases nt with
      | none => simp [IfElseFunc, render, emit, resState]
      | some node =>
        simp only [IfElseFunc, render]
        rw [hnt ε w (emit st evA)]
        simp [emit]
  · cases c
    · simp [IfFunc, render, resState]
    · cases nt with
      | none => simp [IfFunc, render, emit, resState]
      | some node =>
        simp only [IfFunc, render]
        rw [hnt ε w (emit st evA)]
        simp [emit]
  · intro f ef ef'
    obtain ⟨ev, n?⟩ := f
    cases n? <;> simp [IfElseFunc, render]
  · intro tf tf' g
    cases tf <;> cases tf' <;>
      rcases g with _ | ⟨ev, _ | node⟩ <;> simp [IfElseFunc, render]
  · intro tf
    cases tf <;> simp [IfFunc, render]

/-- Witness for C4 at concrete inputs. -/
theorem lazy_thunk_invocation_discipline_witness :
    (resState (render (IfElseFunc true (some ([0], none)) (some ([1], none)))
      okW ⟨[], []⟩)).events = [0] ∧
    render (IfFunc false none) okW ⟨[], []⟩ = .ok ⟨[], []⟩ := by
  have h := lazy_thunk_invocation_discipline okW ⟨[], []⟩ true [0] [1] none none
    (by simp [optPreservesEvents]) (by simp [optPreservesEvents])
  exact ⟨by simpa using h.1, h.2.2.2.2 none⟩

/-- C6: a void tag renders identically — same output, same error, for any
sink — whatever its children list is, and (for a non-failing sink) its
output is the open fragment, the attribute fragments, then `/>`, with no
child output and no closing tag. -/
theorem void_tag_ignores_children :
    ∀ {ε : Type} (w : Writer ε) (name : String)
      (attrs : List (String × String)) (cs : List (Option Node)) (st : RState),
      (render (.tag name true attrs cs) w st =
        render (.tag name true attrs []) w st) ∧
      (render (.tag name true attrs cs) okW st =
        .ok { st with written :=
          st.written ++ (["<" ++ name] ++ attrs.map attrFrag ++ ["/>"]) }) := by
  intro ε w name attrs cs st
  constructor
  · simp [render]
  · simp [render, writeW_okW, renderAttrs_okW, writeW, okW]

/-- C7: `Map` renders item by item in sequence order — it splits over list
append (rendering the prefix, then the suffix from the reached state),
renders nothing for no items, and for a single item invokes the transform
(recording its events) and then renders the produced node (panicking on a
nil node); consequently, when the prefix fails with a write error, the
whole render returns that error at once and the suffix's items are never
processed (no transform invocation, no output). -/
theorem map_renders_items_in_order :
    ∀ {ε : Type} (w : Writer ε) (st : RState) (xs ys : List Nat)
      (f : Nat → List Nat × Option Node) (i : Nat),
      (render (Map (xs ++ ys) f) w st =
        match render (Map xs f) w st with
        | .ok st' => render (Map ys f) w st'
        | r => r) ∧
      (render (Map ([] : List Nat) f) w st = .ok st) ∧
      (render (Map [i] f) w st =
        match f i with
        | (ev, none) => .panic (emit st ev)
        | (ev, some node) => render node w (emit st ev)) ∧
      (∀ (e : ε) (st' : RState),
        render (Map xs f) w st = .err e st' →
        render (Map (xs ++ ys) f) w st = .err e st') := by
  intro ε w st xs ys f i
  have happ : render (Map (xs ++ ys) f) w st =
      match render (Map xs f) w st with
      | .ok st' => render (Map ys f) w st'
      | r => r := by
    simp only [Map, render, List.map_append]
    exact renderEntries_append w (xs.map f) (ys.map f) st
  refine ⟨happ, by simp [Map, render, renderEntries], ?_, ?_⟩
  · cases hfi : f i with
    | mk ev n? =>
      cases n? with
      | none => simp [Map, render, renderEntries, hfi]
      | some node =>
        simp only [Map, List.map_cons, List.map_nil, render, renderEntries, hfi]
        cases render node w (emit st ev) <;> simp [renderEntries]
  · intro e st' herr
    rw [happ, herr]

/-- Witness for C7: with a failing sink, rendering `Map [0, 1] f` returns
the write error raised on item 0 — item 1's transform events are absent. -/
theorem map_renders_items_in_order_witness :
    render (Map [0, 1] (fun i => ([i + 5], some (Text "z")))) failW ⟨[], []⟩ =
      .err () ⟨[], [5]⟩ := by
  have h := map_renders_items_in_order failW ⟨[], []⟩ [0] [1]
    (fun i => ([i + 5], some (Text "z"))) 0
  exact h.2.2.2 () ⟨[], [5]⟩
    (by simp [Map, Text, render, renderEntries, writeW, failW, emit])

/-- C8: in the children loop shared by `Group`, `Document` and non-void
`Tag` rendering, nil children are skipped silently: the outcome (output
and error alike, for any sink) equals that of the sequence with the nil
entries removed. -/
theorem nil_children_skipped :
    ∀ {ε : Type} (w : Writer ε) (st : RState) (cs : List (Option Node))
      (name : String) (attrs : List (String × String)),
      (renderChildren cs w st = renderChildren (cs.filter Option.isSome) w st) ∧
      (render (Group cs) w st = render (Group (cs.filter Option.isSome)) w st) ∧
      (render (Document cs) w st =
        render (Document (cs.filter Option.isSome)) w st) ∧
      (render (.tag name false attrs cs) w st =
        render (.tag name false attrs (cs.filter Option.isSome)) w st) := by
  intro ε w st cs name attrs
  refine ⟨(renderChildren_filter w cs st).symm, ?_, ?_, ?_⟩
  · simp [Group, render, renderChildren_filter]
  · simp [Document, render, renderChildren_filter]
  · simp [render, renderChildren_filter]

/-- C9: `Attribute` with the empty value is a no-op (the attribute is not
set, so no fragment for that key is ever rendered from it), and for
non-empty values the last write wins: after setting key `k` twice the
attribute map holds exactly one pair for `k`, carrying the second value,
and the concrete `x="a"` then `x="b"` chain renders exactly one ` x="b"`
fragment. -/
theorem attribute_empty_noop_and_last_write_wins :
    ∀ (t : Tag) (k v v' n : String) (st : RState),
      (t.Attribute k "" = t) ∧
      (v ≠ "" → v' ≠ "" →
        ((t.Attribute k v).Attribute k v').attributes = setAttr t.attributes k v') ∧
      (v ≠ "" → v' ≠ "" → (t.attributes.map Prod.fst).Nodup →
        ((t.Attribute k v).Attribute k v').attributes.filter
          (fun p => p.1 = k) = [(k, v')]) ∧
      (render (((NewTag n false []).Attribute "x" "a").Attribute "x" "b").toNode
          okW st =
        .ok { st with written :=
          st.written ++ ["<" ++ n, " x=\"b\"", ">", "</" ++ n ++ ">"] }) := by
  intro t k v v' n st
  have hmap : ∀ hv : v ≠ "", ∀ hv' : v' ≠ "",
      ((t.Attribute k v).Attribute k v').attributes = setAttr t.attributes k v' := by
    intro hv hv'
    simp [Tag.Attribute, hv, hv', setAttr_setAttr]
  refine ⟨by simp [Tag.Attribute], hmap, ?_, ?_⟩
  · intro hv hv' hnd
    rw [hmap hv hv']
    exact filter_key_setAttr t.attributes k v' hnd
  · simp [NewTag, Tag.Attribute, Tag.toNode, setAttr, render, renderAttrs,
      renderChildren, attrFrag, writeW, okW]

/-- Witness for C9 at concrete inputs. -/
theorem attribute_empty_noop_and_last_write_wins_witness :
    (((NewTag "div" false []).Attribute "x" "a").Attribute "x" "b").attributes.filter
      (fun p => p.1 = "x") = [("x", "b")] :=
  (attribute_empty_noop_and_last_write_wins (NewTag "div" false [])
    "x" "a" "b" "i" ⟨[], []⟩).2.2.1 (by decide) (by decide) (by decide)

/-- C10: `Document` rendering writes the literal `<!DOCTYPE html>` preamble
exactly once, unconditionally, before anything else, then renders the
children in order with nil children skipped; with no children it renders
exactly the preamble. -/
theorem document_preamble_first :
    ∀ (cs : List (Option Node)) (st : RState),
      (render (Document cs) okW st =
        renderChildren cs okW
          { st with written := st.written ++ ["<!DOCTYPE html>"] }) ∧
      (render (Document cs) okW st =
        render (Document (cs.filter Option.isSome)) okW st) ∧
      (render (Document []) okW st =
        .ok { st with written := st.written ++ ["<!DOCTYPE html>"] }) := by
  intro cs st
  refine ⟨?_, ?_, ?_⟩
  · simp [Document, render, writeW, okW]
  · simp [Document, render, renderChildren_filter]
  · simp [Document, render, renderChildren, writeW, okW]

end LibHtml
